import Mathlib

/-!
Verification development for the IGS data downloader
(`igs_data_downloader.py`).

The script is a single linear workflow: parse the "TIME OF FIRST OBS"
timestamp out of a rover RINEX file, derive year / day-of-year strings,
build fixed archive URLs for an observation file and a navigation file,
download them, decompress the gzip ones, and print a summary.

The embedding below models:
* the pure string/path builders exactly as the Python f-strings build them;
* Python `str.lower`, `str(int)`, zero-padded formatting over ASCII;
* the header parser including the regex
  `(\d{4})\s+(\d{1,2})\s+(\d{1,2})\s+(\d{1,2})\s+(\d{1,2})\s+([\d\.]+)`
  (ASCII classes; the analysis-agency data never needs Unicode digits),
  and the CPython `float` seconds conversion as correctly rounded
  IEEE-754 binary64 arithmetic over exact rationals;
* the filesystem as a partial map from paths to byte lists, the network
  as an oracle from URLs to fetch outcomes, and gzip inflation as an
  oracle; `main` becomes a function from those oracles to an event trace
  plus a final filesystem.
-/

set_option autoImplicit false

/-! ## Bytes and the filesystem model -/

abbrev Bytes := List Nat

abbrev FS := String → Option Bytes

def fsSet (fs : FS) (p : String) (b : Bytes) : FS :=
  fun q => if q = p then some b else fs q

def fsRemove (fs : FS) (p : String) : FS :=
  fun q => if q = p then none else fs q

/-! ## String helpers modelling the Python primitives used by the script -/

/-- Python `str.lower` restricted to ASCII letters (the only case the
station-id path construction distinguishes). -/
def pyLowerChar (c : Char) : Char :=
  if 'A' ≤ c ∧ c ≤ 'Z' then Char.ofNat (c.toNat + 32) else c

def strToLower (s : String) : String :=
  ⟨s.data.map pyLowerChar⟩

def digitCh (n : Nat) : Char := Char.ofNat (48 + n)

/-- Decimal digits of a natural number, via explicit fuel so that the
kernel can evaluate it (`str(n)` in Python). -/
def natDigitsCore : Nat → Nat → List Char
  | 0, _ => []
  | fuel + 1, n => if n < 10 then [digitCh n] else natDigitsCore fuel (n / 10) ++ [digitCh (n % 10)]

def natDigits (n : Nat) : List Char := natDigitsCore (n + 1) n

/-- Python `str(n)` for a natural number. -/
def natStr (n : Nat) : String := ⟨natDigits n⟩

/-- Python `s[-2:]`: the last two characters (the whole string when it is
shorter than two characters). -/
def lastTwoStr (s : String) : String :=
  ⟨s.data.drop (s.data.length - 2)⟩

/-- Python `f"{n:03d}"`: decimal rendering left-padded with zeros to
width 3. -/
def pad3 (n : Nat) : String :=
  ⟨List.replicate (3 - (natDigits n).length) '0' ++ natDigits n⟩

/-- Zero-padded two-digit rendering; used only to state what a
"2-digit year" means, not taken from the source. -/
def pad2 (n : Nat) : String :=
  ⟨List.replicate (2 - (natDigits n).length) '0' ++ natDigits n⟩

/-- `os.path.join` for the relative file names this script constructs. -/
def pathJoin (a b : String) : String := a ++ "/" ++ b

def startsWithSeq : List Char → List Char → Bool
  | [], _ => true
  | _ :: _, [] => false
  | p :: ps, c :: cs => p = c && startsWithSeq ps cs

def endsWithSeq (suf l : List Char) : Bool :=
  startsWithSeq suf.reverse l.reverse

/-- Python `str.endswith`. -/
def strEndsWith (s suf : String) : Bool :=
  endsWithSeq suf.data s.data

/-- Whether the pattern occurs as a contiguous subsequence (Python
`pat in s`). -/
def containsSeq (pat : List Char) : List Char → Bool
  | [] => startsWithSeq pat []
  | c :: cs => startsWithSeq pat (c :: cs) || containsSeq pat cs

/-! ## Calendar: `datetime.timetuple().tm_yday` -/

def isLeapYear (y : Nat) : Bool :=
  y % 4 == 0 && (y % 100 != 0 || y % 400 == 0)

/-- Month lengths as a function of the leap flag. -/
def dimL (leap : Bool) (m : Nat) : Nat :=
  if m = 2 then (if leap then 29 else 28)
  else if m = 4 ∨ m = 6 ∨ m = 9 ∨ m = 11 then 30
  else 31

def daysInMonth (y m : Nat) : Nat := dimL (isLeapYear y) m

/-- Gregorian ordinal day as `tm_yday` computes it: days in the earlier
months plus the day of month. -/
def doyL (leap : Bool) (m d : Nat) : Nat :=
  (List.range (m - 1)).foldl (fun acc i => acc + dimL leap (i + 1)) 0 + d

/-- All `(month, day)` pairs of a year in calendar order; used for the
specification-side reading of "ordinal day of the year". -/
def yearDatesL (leap : Bool) : List (Nat × Nat) :=
  (List.range 12).foldr
    (fun i acc => (List.range (dimL leap (i + 1))).map (fun j => (i + 1, j + 1)) ++ acc) []

/-- Specification-side ordinal day: 1-based position of the date in the
calendar-ordered list of the year's dates. -/
def specOrdinalL (leap : Bool) (m d : Nat) : Nat :=
  (yearDatesL leap).findIdx (fun p => p == (m, d)) + 1

/-- Walk the calendar in order checking that `doyL` enumerates it
1, 2, 3, ... -/
def doyWalk (leap : Bool) : Nat → List (Nat × Nat) → Bool
  | _, [] => true
  | k, p :: t => doyL leap p.1 p.2 == k && doyWalk leap (k + 1) t

/-! ## The parsed timestamp (`datetime.datetime`, UTC-fixed) -/

structure PyDatetime where
  year : Nat
  month : Nat
  day : Nat
  hour : Nat
  minute : Nat
  second : Nat
  microsecond : Nat
deriving DecidableEq, Repr

/-- The `datetime.datetime` constructor's range validation (it raises
`ValueError`, i.e. yields no value, outside these ranges). -/
def mkPyDatetime (y mo d h mi s us : Nat) : Option PyDatetime :=
  if 1 ≤ y ∧ y ≤ 9999 ∧ 1 ≤ mo ∧ mo ≤ 12 ∧ 1 ≤ d ∧ d ≤ daysInMonth y mo
      ∧ h ≤ 23 ∧ mi ≤ 59 ∧ s ≤ 59 ∧ us ≤ 999999 then
    some ⟨y, mo, d, h, mi, s, us⟩
  else none

/-- `get_doy`: `dt_object.timetuple().tm_yday`. -/
def get_doy (dt : PyDatetime) : Nat := doyL (isLeapYear dt.year) dt.month dt.day

/-! ## Path/name builders (lines 122-173 of the script) -/

def CDDIS_BASE_URL : String := "https://cddis.nasa.gov/archive/gnss/data/daily"

def MGEX_NAV_BASE_URL : String := "https://cddis.nasa.gov/archive/gnss/data/campaign/mgex/daily/rinex3"

def obs_filename_stem_v3 (station doy yy : String) : String :=
  station ++ doy ++ "0." ++ yy ++ "o"

def obs_filename_crx_gz (station doy yy : String) : String :=
  obs_filename_stem_v3 station doy yy ++ ".crx.gz"

def obs_url_v3 (year : Nat) (doy yy station : String) : String :=
  CDDIS_BASE_URL ++ "/" ++ natStr year ++ "/" ++ doy ++ "/" ++ yy ++ "o/"
    ++ obs_filename_crx_gz station doy yy

def obs_final_v3 (station doy yy : String) : String :=
  obs_filename_stem_v3 station doy yy ++ ".crx"

def obs_filename_stem_v2 (station doy yy : String) : String :=
  station ++ doy ++ "0." ++ yy ++ "d"

def obs_filename_v2_Z (station doy yy : String) : String :=
  obs_filename_stem_v2 station doy yy ++ ".Z"

def obs_url_v2 (year : Nat) (doy yy station : String) : String :=
  CDDIS_BASE_URL ++ "/" ++ natStr year ++ "/" ++ doy ++ "/" ++ yy ++ "d/"
    ++ obs_filename_v2_Z station doy yy

def nav_filename_stem (year : Nat) (doy : String) : String :=
  "BRDM00DLR_S_" ++ natStr year ++ doy ++ "0000_01D_MN"

def nav_filename_rnx_gz (year : Nat) (doy : String) : String :=
  nav_filename_stem year doy ++ ".rnx.gz"

def nav_url (year : Nat) (doy : String) : String :=
  MGEX_NAV_BASE_URL ++ "/" ++ natStr year ++ "/" ++ doy ++ "/" ++ nav_filename_rnx_gz year doy

def nav_filename_stem_gde (year : Nat) (doy : String) : String :=
  "BRDM00GDE_S_" ++ natStr year ++ doy ++ "0000_01D_MN"

def nav_filename_rnx_gz_gde (year : Nat) (doy : String) : String :=
  nav_filename_stem_gde year doy ++ ".rnx.gz"

def nav_url_gde (year : Nat) (doy : String) : String :=
  MGEX_NAV_BASE_URL ++ "/" ++ natStr year ++ "/" ++ doy ++ "/" ++ nav_filename_rnx_gz_gde year doy

/-! ## Kernel-reducible rational arithmetic

The `Rat` field operations in the ambient library are marked
irreducible, so the model uses its own combinations of `mkRat`, which
the kernel evaluates.  All values handled here are nonnegative. -/

def qAdd (a b : Rat) : Rat := mkRat (a.num * b.den + b.num * a.den) (a.den * b.den)

def qSub (a b : Rat) : Rat := mkRat (a.num * b.den - b.num * a.den) (a.den * b.den)

def qMulNat (a : Rat) (m : Nat) : Rat := mkRat (a.num * m) a.den

def qHalf : Rat := mkRat 1 2

/-- Base-2 logarithm (floor) with explicit fuel so the kernel can
evaluate it. -/
def natLog2Core : Nat → Nat → Nat
  | 0, _ => 0
  | fuel + 1, n => if n ≤ 1 then 0 else natLog2Core fuel (n / 2) + 1

def natLog2 (n : Nat) : Nat := natLog2Core n n

/-! ## Correctly rounded IEEE-754 binary64 over exact rationals

CPython's `float` is an IEEE-754 double; string conversion and the
arithmetic operators are correctly rounded (round to nearest, ties to
even).  The magnitudes arising here are far from the subnormal and
overflow ranges, so a double is exactly a rational `m * 2^e` with
`2^52 ≤ m < 2^53`, and every operation is "compute exactly in `ℚ`, then
round to the nearest such rational". -/

/-- Round a rational to the nearest integer, ties to even. -/
def roundNearestEven (x : Rat) : Int :=
  let f := x.floor
  let r := qSub x (mkRat f 1)
  if Rat.blt r qHalf then f
  else if Rat.blt qHalf r then f + 1
  else if f % 2 = 0 then f else f + 1

/-- Floor of the base-2 logarithm of a positive rational. -/
def ratILog2 (q : Rat) : Int :=
  let a := q.num.toNat
  let b := q.den
  if b ≤ a then (natLog2 (a / b) : Int)
  else
    let j := natLog2 (b / a)
    if b ≤ a * 2 ^ j then -(j : Int) else -((j : Int) + 1)

/-- Round a nonnegative rational to the nearest IEEE-754 binary64 value
(returned as the exact rational that the double denotes). -/
def roundDouble (q : Rat) : Rat :=
  if q.num ≤ 0 then 0
  else
    let e : Int := ratILog2 q - 52
    if e ≤ 0 then
      mkRat (roundNearestEven (mkRat (q.num * (2 : Int) ^ (-e).toNat) q.den)) (2 ^ (-e).toNat)
    else
      mkRat (roundNearestEven (mkRat q.num (q.den * 2 ^ e.toNat)) * (2 : Int) ^ e.toNat) 1

/-! ## The header parser (`get_obs_date_from_rinex`, lines 15-42)

The regular expression
`(\d{4})\s+(\d{1,2})\s+(\d{1,2})\s+(\d{1,2})\s+(\d{1,2})\s+([\d\.]+)`
is deterministic for `re.search`: `\d{4}` has no choice; each `\s+` and
the final `[\d\.]+` are greedy against a disjoint follow set; and for
`\d{1,2}\s+` the one-digit alternative starts with the second digit of
the two-digit alternative, so whenever two digits are available the
shorter branch fails at its `\s`, and backtracking never changes the
outcome.  `matchAt` implements the anchored match at one position and
`reSearch` the leftmost search. -/

def isSpaceCh (c : Char) : Bool :=
  c.toNat = 32 || (9 ≤ c.toNat && c.toNat ≤ 13)

def isNumDotCh (c : Char) : Bool := c.isDigit || c = '.'

structure RawFields where
  y : List Char
  mo : List Char
  d : List Char
  h : List Char
  mi : List Char
  sec : List Char
deriving DecidableEq, Repr

/-- `(\d{4})` anchored at the head. -/
def take4Digits : List Char → Option (List Char × List Char)
  | c1 :: c2 :: c3 :: c4 :: rest =>
    if c1.isDigit && c2.isDigit && c3.isDigit && c4.isDigit then
      some ([c1, c2, c3, c4], rest)
    else none
  | _ => none

/-- `\s+` anchored at the head (greedy). -/
def dropSpaces1 : List Char → Option (List Char)
  | c :: cs => if isSpaceCh c then some (cs.dropWhile isSpaceCh) else none
  | [] => none

/-- `(\d{1,2})\s+` anchored at the head. -/
def takeField : List Char → Option (List Char × List Char)
  | c1 :: c2 :: rest =>
    if c1.isDigit && c2.isDigit then
      (dropSpaces1 rest).map (fun r => ([c1, c2], r))
    else if c1.isDigit then
      (dropSpaces1 (c2 :: rest)).map (fun r => ([c1], r))
    else none
  | _ => none

/-- `(p+)` anchored at the head (greedy). -/
def takeWhile1 (p : Char → Bool) : List Char → Option (List Char × List Char)
  | [] => none
  | c :: cs => if p c then some (c :: cs.takeWhile p, cs.dropWhile p) else none

/-- The whole pattern anchored at the head of `s`. -/
def matchAt (s : List Char) : Option RawFields :=
  (take4Digits s).bind fun py =>
  (dropSpaces1 py.2).bind fun s2 =>
  (takeField s2).bind fun pMo =>
  (takeField pMo.2).bind fun pD =>
  (takeField pD.2).bind fun pH =>
  (takeField pH.2).bind fun pMi =>
  (takeWhile1 isNumDotCh pMi.2).map fun pS =>
    ⟨py.1, pMo.1, pD.1, pH.1, pMi.1, pS.1⟩

/-- `re.search`: the match at the leftmost position where one exists. -/
def reSearch : List Char → Option RawFields
  | [] => none
  | c :: cs =>
    match matchAt (c :: cs) with
    | some r => some r
    | none => reSearch cs

def markerChars : List Char := "TIME OF FIRST OBS".data

/-- Value of a digit string (`int(s)`). -/
def digitsVal (l : List Char) : Nat :=
  l.foldl (fun acc c => acc * 10 + (c.toNat - 48)) 0

def dotCount (l : List Char) : Nat := (l.filter (fun c => c = '.')).length

/-- The exact decimal value of a `[\d\.]+` token with at most one dot. -/
def decimalVal (l : List Char) : Rat :=
  let ip := l.takeWhile (fun c => c ≠ '.')
  let fp := (l.dropWhile (fun c => c ≠ '.')).drop 1
  mkRat (digitsVal ip * 10 ^ fp.length + digitsVal fp) (10 ^ fp.length)

/-- CPython `float(s)` for a `[\d\.]+` token: fails (`ValueError`) unless
the token has at least one digit and at most one dot, and otherwise
returns the correctly rounded double of the decimal value. -/
def pyFloatVal (l : List Char) : Option Rat :=
  if l.all isNumDotCh && l.any (fun c => c.isDigit) && dotCount l ≤ 1 then
    some (roundDouble (decimalVal l))
  else none

/-- `second = int(float(second_full))` (the value is nonnegative, so
truncation is the floor). -/
def pySecondOf (x : Rat) : Nat := x.floor.toNat

/-- `microsecond = int((float(second_full) - second) * 1_000_000)` with
IEEE double subtraction and multiplication. -/
def pyMicroOf (x : Rat) : Nat :=
  (roundDouble (qMulNat (roundDouble (qSub x (mkRat x.floor 1))) 1000000)).floor.toNat

/-- Lines 24-31: regex match on a marker line, numeric conversion, and
the `datetime.datetime` call; any failure (`None` return or exception
caught by the outer handler) yields no timestamp. -/
def parseTimeLine (line : List Char) : Option PyDatetime :=
  match reSearch line with
  | none => none
  | some f =>
    match pyFloatVal f.sec with
    | none => none
    | some x =>
      mkPyDatetime (digitsVal f.y) (digitsVal f.mo) (digitsVal f.d)
        (digitsVal f.h) (digitsVal f.mi) (pySecondOf x) (pyMicroOf x)

/-- Lines 22-36: scan the lines in order; the first line containing the
marker decides the outcome (the code returns from inside the loop either
way). -/
def scanLines : List (List Char) → Option PyDatetime
  | [] => none
  | l :: ls => if containsSeq markerChars l then parseTimeLine l else scanLines ls

/-- `get_obs_date_from_rinex`: `none` for the file stands for
`FileNotFoundError` (or any other read failure), which the function
catches and turns into a `None` return. -/
def get_obs_date_from_rinex (file : Option (List (List Char))) : Option PyDatetime :=
  match file with
  | none => none
  | some lines => scanLines lines

/-! ## The Fetcher (`download_file`, lines 48-67)

`requests.get(url, stream=True, timeout=60)` plus `raise_for_status()`
run before the destination is opened; a non-2xx status, a connection
failure, or a timeout at that point raises, is caught, and leaves the
filesystem untouched (`preFail`).  With `stream=True` the body is read
inside the `with open(output_path, 'wb')` block, so an exception raised
by `iter_content` mid-stream is also caught by the same handlers but
only after the destination was opened and partially written
(`streamFail` with the bytes written so far). -/

inductive FetchOutcome where
  | preFail
  | streamFail (part : Bytes)
  | ok (body : Bytes)
deriving DecidableEq, Repr

def fetchOk : FetchOutcome → Bool
  | .ok _ => true
  | _ => false

def download_file (fetch : String → FetchOutcome) (fs : FS) (url dest : String) : Bool × FS :=
  match fetch url with
  | .preFail => (false, fs)
  | .streamFail part => (false, fsSet fs dest part)
  | .ok body => (true, fsSet fs dest body)

/-! ## The Decompressor (`decompress_gz_file`, lines 69-84)

`gzip.open` on a missing input raises `FileNotFoundError` before the
output is opened (`fs` unchanged); a failure during `copyfileobj`
happens after `open(output_file_path, 'wb')` truncated/created the
output (`Except.error` carries the bytes written before the failure);
`os.remove` of the input runs only after a fully successful copy. -/

def decompress_gz_file (inflate : Bytes → Except Bytes Bytes) (fs : FS) (gz out : String) :
    Bool × FS :=
  match fs gz with
  | none => (false, fs)
  | some data =>
    match inflate data with
    | .error part => (false, fsSet fs out part)
    | .ok body => (true, fsRemove (fsSet fs out body) gz)

/-! ## The Orchestrator (`main`, lines 87-191)

`main` is modelled as a function from the command-line arguments and an
environment (rover-file contents, network oracle, gzip oracle, initial
filesystem) to the list of observable events in order plus the final
filesystem.  Each event corresponds to one `print`/call site of the
script. -/

inductive Event where
  | fetchAttempt (url : String) (ok : Bool)
  | v2warning (fname : String)
  | decompressCall (gz out : String) (ok : Bool)
  | manualDecompressMsg (path : String)
  | noAutoDecompressMsg (path : String)
  | obsDownloadFailedMsg
  | navFallbackMsg
  | navBothFailedMsg
  | summary (rover base nav : String)
deriving DecidableEq, Repr

structure Args where
  rinex_rover_file : String
  station_id : String
  output_dir : String
  rinex_obs_version : String

structure Env where
  roverLines : Option (List (List Char))
  fetch : String → FetchOutcome
  inflate : Bytes → Except Bytes Bytes
  fs0 : FS

def derivedYY (dt : PyDatetime) : String := lastTwoStr (natStr dt.year)

def derivedDoyStr (dt : PyDatetime) : String := pad3 (get_doy dt)

/-- Lines 117-143: `(obs_filename_gz, obs_final_filename, obs_url)`,
with the empty-string initializers kept for a version that is neither
"3" nor "2" (argparse's `choices` rules that out at the CLI). -/
def obsNames (args : Args) (dt : PyDatetime) : String × String × String :=
  let station := strToLower args.station_id
  let doy_str := derivedDoyStr dt
  let yy := derivedYY dt
  if args.rinex_obs_version = "3" then
    (obs_filename_crx_gz station doy_str yy, obs_final_v3 station doy_str yy,
      obs_url_v3 dt.year doy_str yy station)
  else if args.rinex_obs_version = "2" then
    (obs_filename_v2_Z station doy_str yy, obs_filename_stem_v2 station doy_str yy,
      obs_url_v2 dt.year doy_str yy station)
  else ("", "", "")

/-- Lines 117-156: the observation stage. -/
def obsStage (args : Args) (env : Env) (dt : PyDatetime) : List Event × FS :=
  let n := obsNames args dt
  let ev0 : List Event :=
    if args.rinex_obs_version = "2" then [Event.v2warning n.1] else []
  let gzPath := pathJoin args.output_dir n.1
  let finalPath := pathJoin args.output_dir n.2.1
  let r := download_file env.fetch env.fs0 n.2.2 gzPath
  let tail : List Event × FS :=
    if r.1 then
      if args.rinex_obs_version = "3" && strEndsWith n.1 ".crx.gz" then
        let rd := decompress_gz_file env.inflate r.2 gzPath finalPath
        ([Event.decompressCall gzPath finalPath rd.1], rd.2)
      else if args.rinex_obs_version = "2" && strEndsWith n.1 ".Z" then
        ([Event.manualDecompressMsg gzPath], r.2)
      else
        ([Event.noAutoDecompressMsg gzPath], r.2)
    else ([Event.obsDownloadFailedMsg], r.2)
  (ev0 ++ Event.fetchAttempt n.2.2 r.1 :: tail.1, tail.2)

/-- Lines 159-184: the navigation stage; the third component is the
`nav_dl_path_final` in scope at the summary (reassigned by the
fallback branch). -/
def navStage (env : Env) (dt : PyDatetime) (dir : String) (fs : FS) :
    List Event × FS × String :=
  let doyS := derivedDoyStr dt
  let url1 := nav_url dt.year doyS
  let gz1 := pathJoin dir (nav_filename_rnx_gz dt.year doyS)
  let final1 := pathJoin dir (nav_filename_stem dt.year doyS ++ ".rnx")
  let r1 := download_file env.fetch fs url1 gz1
  if r1.1 then
    let rd := decompress_gz_file env.inflate r1.2 gz1 final1
    ([Event.fetchAttempt url1 true, Event.decompressCall gz1 final1 rd.1], rd.2, final1)
  else
    let url2 := nav_url_gde dt.year doyS
    let gz2 := pathJoin dir (nav_filename_rnx_gz_gde dt.year doyS)
    let final2 := pathJoin dir (nav_filename_stem_gde dt.year doyS ++ ".rnx")
    let r2 := download_file env.fetch r1.2 url2 gz2
    if r2.1 then
      let rd := decompress_gz_file env.inflate r2.2 gz2 final2
      ([Event.fetchAttempt url1 false, Event.navFallbackMsg, Event.fetchAttempt url2 true,
        Event.decompressCall gz2 final2 rd.1], rd.2, final2)
    else
      ([Event.fetchAttempt url1 false, Event.navFallbackMsg, Event.fetchAttempt url2 false,
        Event.navBothFailedMsg], r2.2, final2)

def manualObsMsg : String := "Download/Decompress OBS manually if failed"

def manualNavMsg : String := "Download/Decompress NAV manually if failed"

/-- One summary line: the path when `os.path.exists` confirms it, the
manual-action message otherwise. -/
def summaryBase (fs : FS) (path msg : String) : String :=
  if (fs path).isSome then path else msg

/-- Lines 108-191: everything after a successful parse, ending with the
summary built from `os.path.exists` checks on the final filesystem. -/
def mainAfterParse (args : Args) (env : Env) (dt : PyDatetime) : List Event × FS :=
  let ob := obsStage args env dt
  let nv := navStage env dt args.output_dir ob.2
  let obsFinalPath := pathJoin args.output_dir (obsNames args dt).2.1
  let base := summaryBase nv.2.1 obsFinalPath manualObsMsg
  let navLine := summaryBase nv.2.1 nv.2.2 manualNavMsg
  (ob.1 ++ nv.1 ++ [Event.summary args.rinex_rover_file base navLine], nv.2.1)

/-- Lines 103-106: a parser failure returns from `main` before any URL
is built or any network call happens. -/
def mainRun (args : Args) (env : Env) : List Event × FS :=
  match get_obs_date_from_rinex env.roverLines with
  | none => ([], env.fs0)
  | some dt => mainAfterParse args env dt

def isFetchEvent : Event → Bool
  | .fetchAttempt _ _ => true
  | _ => false

/-! ## General lemmas about the model -/

theorem download_fst (fetch : String → FetchOutcome) (fs : FS) (url dest : String) :
    (download_file fetch fs url dest).1 = fetchOk (fetch url) := by
  cases h : fetch url <;> simp [download_file, fetchOk, h]

theorem strToLower_length (s : String) : (strToLower s).length = s.length := by
  cases s
  exact List.length_map _ _

/-! ## C1: the version-3 observation builder -/

set_option maxRecDepth 4096 in
/-- C1: for version "3" the observation-file builder is deterministic
and follows the fixed layout
archive-root/year/doy/yyo/station-doy-0.yy-o.crx.gz; on year 2023,
day-of-year "015", 2-digit year "23" and lowercased station "algo" it
yields stem "algo0150.23o", compressed name "algo0150.23o.crx.gz" and
the stated URL. -/
theorem C1_obs_builder_deterministic :
    (∀ (year : Nat) (doy yy station : String),
        obs_url_v3 year doy yy station =
          CDDIS_BASE_URL ++ "/" ++ natStr year ++ "/" ++ doy ++ "/" ++ yy ++ "o/" ++ station
            ++ doy ++ "0." ++ yy ++ "o" ++ ".crx.gz")
    ∧ strToLower "ALGO" = "algo"
    ∧ obs_filename_stem_v3 "algo" "015" "23" = "algo0150.23o"
    ∧ obs_filename_crx_gz "algo" "015" "23" = "algo0150.23o.crx.gz"
    ∧ obs_url_v3 2023 "015" "23" "algo"
        = "https://cddis.nasa.gov/archive/gnss/data/daily/2023/015/23o/algo0150.23o.crx.gz" := by
  refine ⟨fun year doy yy station => ?_, by decide, by decide, by decide, by decide⟩
  apply String.ext
  simp [obs_url_v3, obs_filename_crx_gz, obs_filename_stem_v3, String.data_append,
    List.append_assoc]

/-! ## C10: the station identifier is embedded verbatim -/

theorem obs_fetch_mem (args : Args) (env : Env) (dt : PyDatetime) :
    Event.fetchAttempt (obsNames args dt).2.2 (fetchOk (env.fetch (obsNames args dt).2.2))
      ∈ (mainAfterParse args env dt).1 := by
  simp [mainAfterParse, obsStage, download_fst]

set_option maxRecDepth 4096 in
/-- C10: the station id is never validated or truncated: for any id
string of any length, version 3 lowercases it and embeds it verbatim at
the head of the filename stem and into the attempted URL, with no error
path. -/
theorem C10_station_id_unvalidated :
    ∀ (args : Args) (env : Env) (dt : PyDatetime),
      get_obs_date_from_rinex env.roverLines = some dt →
      args.rinex_obs_version = "3" →
      (strToLower args.station_id).length = args.station_id.length
      ∧ (obsNames args dt).1.data
          = (strToLower args.station_id).data ++ (derivedDoyStr dt).data ++ "0.".data
              ++ (derivedYY dt).data ++ "o".data ++ ".crx.gz".data
      ∧ (obsNames args dt).2.2
          = obs_url_v3 dt.year (derivedDoyStr dt) (derivedYY dt) (strToLower args.station_id)
      ∧ Event.fetchAttempt (obsNames args dt).2.2
          (fetchOk (env.fetch (obsNames args dt).2.2)) ∈ (mainRun args env).1 := by
  intro args env dt hp hv
  refine ⟨strToLower_length args.station_id, ?_, ?_, ?_⟩
  · simp [obsNames, hv, obs_filename_crx_gz, obs_filename_stem_v3, String.data_append,
      List.append_assoc]
  · simp [obsNames, hv]
  · simp only [mainRun, hp]
    exact obs_fetch_mem args env dt

/-! ## C4: day-of-year, its rendering, and the 2-digit year -/

theorem dimL_le_31 (L : Bool) (m : Nat) : dimL L m ≤ 31 := by
  unfold dimL
  split
  · split <;> omega
  · split <;> omega

theorem doyWalk_findIdx (leap : Bool) (m d : Nat) :
    ∀ (l : List (Nat × Nat)) (k : Nat), doyWalk leap k l = true → (m, d) ∈ l →
      l.findIdx (fun p => p == (m, d)) + k = doyL leap m d := by
  intro l
  induction l with
  | nil => intro k _ hm; cases hm
  | cons p t ih =>
    intro k hw hm
    rw [doyWalk, Bool.and_eq_true, beq_iff_eq] at hw
    by_cases hp : p = (m, d)
    · rw [List.findIdx_cons]
      simp [hp]
      rw [hp] at hw
      exact hw.1.symm
    · rw [List.findIdx_cons]
      have hpb : (p == (m, d)) = false := beq_false_of_ne hp
      rw [hpb]
      simp only [cond_false]
      have hmt : (m, d) ∈ t := by
        rcases List.mem_cons.1 hm with h | h
        · exact absurd h.symm hp
        · exact h
      have := ih (k + 1) hw.2 hmt
      omega

theorem mem_foldr_append {α : Type} (f : Nat → List α) (l : List Nat) (i : Nat) (x : α)
    (hi : i ∈ l) (hx : x ∈ f i) :
    x ∈ l.foldr (fun j acc => f j ++ acc) [] := by
  induction l with
  | nil => cases hi
  | cons a t ih =>
    rcases List.mem_cons.1 hi with h | h
    · subst h
      exact List.mem_append.2 (Or.inl hx)
    · exact List.mem_append.2 (Or.inr (ih h))

theorem mem_yearDatesL (leap : Bool) (m d : Nat) (hm1 : 1 ≤ m) (hm2 : m ≤ 12)
    (hd1 : 1 ≤ d) (hd2 : d ≤ dimL leap m) : (m, d) ∈ yearDatesL leap := by
  unfold yearDatesL
  have hmm : m - 1 + 1 = m := by omega
  have hdd : d - 1 + 1 = d := by omega
  refine mem_foldr_append _ _ (m - 1) _ (List.mem_range.2 (by omega)) ?_
  rw [hmm]
  exact List.mem_map.2 ⟨d - 1, List.mem_range.2 (by omega), by rw [hdd]⟩

set_option maxRecDepth 40000 in
theorem calendar_ball :
    ∀ L : Bool, ∀ m < 13, ∀ d < 32,
      (doyL L m d = specOrdinalL L m d ∧ 1 ≤ doyL L m d ∧ doyL L m d ≤ 366)
        ∨ m = 0 ∨ d = 0 ∨ dimL L m < d := by
  intro L m hm d hd
  by_cases hm0 : m = 0
  · exact Or.inr (Or.inl hm0)
  by_cases hd0 : d = 0
  · exact Or.inr (Or.inr (Or.inl hd0))
  by_cases hdim : dimL L m < d
  · exact Or.inr (Or.inr (Or.inr hdim))
  left
  have hwalk : doyWalk L 1 (yearDatesL L) = true := by
    cases L <;> decide
  have hlen : (yearDatesL L).length ≤ 366 := by
    cases L <;> decide
  have hmem := mem_yearDatesL L m d (by omega) (by omega) (by omega) (by omega)
  have hidx := doyWalk_findIdx L m d (yearDatesL L) 1 hwalk hmem
  have hlt : (yearDatesL L).findIdx (fun p => p == (m, d)) < (yearDatesL L).length :=
    List.findIdx_lt_length_of_exists ⟨(m, d), hmem, by simp⟩
  unfold specOrdinalL
  refine ⟨by omega, by omega, by omega⟩

set_option maxRecDepth 40000 in
set_option maxHeartbeats 1000000 in
theorem pad3_ball : ∀ n < 367, (pad3 n).length = 3 := by
  have hc : ((List.range 367).all fun n => (pad3 n).length == 3) = true := by decide
  simp only [List.all_eq_true, List.mem_range, beq_iff_eq] at hc
  exact hc

theorem natDigitsCore_fuel (n : Nat) :
    ∀ f g, n < f → n < g → natDigitsCore f n = natDigitsCore g n := by
  induction n using Nat.strong_induction_on with
  | _ n ih =>
    intro f g hf hg
    match f, g with
    | f + 1, g + 1 =>
      simp only [natDigitsCore]
      by_cases h : n < 10
      · rw [if_pos h, if_pos h]
      · rw [if_neg h, if_neg h, ih (n / 10) (by omega) f g (by omega) (by omega)]

theorem natDigits_single (n : Nat) (h : n < 10) : natDigits n = [digitCh n] := by
  unfold natDigits
  simp only [natDigitsCore]
  rw [if_pos h]

theorem natDigits_step (n : Nat) (h : 10 ≤ n) :
    natDigits n = natDigits (n / 10) ++ [digitCh (n % 10)] := by
  unfold natDigits
  conv_lhs => simp only [natDigitsCore]
  rw [if_neg (by omega), natDigitsCore_fuel (n / 10) n (n / 10 + 1) (by omega) (by omega)]

theorem natDigits_two (n : Nat) (h1 : 10 ≤ n) (h2 : n ≤ 99) :
    natDigits n = [digitCh (n / 10), digitCh (n % 10)] := by
  rw [natDigits_step n h1, natDigits_single (n / 10) (by omega)]
  rfl

theorem natDigits_four (y : Nat) (h1 : 1000 ≤ y) (h2 : y ≤ 9999) :
    natDigits y
      = natDigits (y / 100) ++ [digitCh (y / 10 % 10), digitCh (y % 10)] := by
  rw [natDigits_step y (by omega), natDigits_step (y / 10) (by omega),
    Nat.div_div_eq_div_mul]
  simp [List.append_assoc]

theorem natStr_four_len (y : Nat) (h1 : 1000 ≤ y) (h2 : y ≤ 9999) :
    (natStr y).data.length = 4 := by
  unfold natStr
  rw [natDigits_four y h1 h2, natDigits_two (y / 100) (by omega) (by omega)]
  simp

theorem lastTwo_natStr (y : Nat) (h1 : 1000 ≤ y) (h2 : y ≤ 9999) :
    lastTwoStr (natStr y) = pad2 (y % 100) := by
  unfold lastTwoStr pad2
  rw [natStr_four_len y h1 h2]
  show String.mk _ = String.mk _
  congr 1
  have hd : (natStr y).data = natDigits y := rfl
  rw [hd, natDigits_four y h1 h2, natDigits_two (y / 100) (by omega) (by omega)]
  by_cases h : y % 100 < 10
  · rw [natDigits_single (y % 100) h]
    have e1 : y / 10 % 10 = 0 := by omega
    have e2 : y % 10 = y % 100 := by omega
    simp [e1, e2]
    decide
  · rw [natDigits_two (y % 100) (by omega) (by omega)]
    have e1 : y / 10 % 10 = y % 100 / 10 := by omega
    have e2 : y % 10 = y % 100 % 10 := by omega
    simp [e1, e2]

set_option maxRecDepth 40000 in
/-- C4: for every valid parsed date, the derived day-of-year is the
standard Gregorian ordinal day (the 1-based position of the date in the
calendar-ordered dates of its year), lies in 1..366, and is rendered as
a zero-padded 3-character string; leap years are handled
(2024-02-29 is day 60, 2023-02-28 is day 59); and for 4-digit years the
2-digit year string is exactly the last two characters of `str(year)`,
i.e. the year modulo 100 zero-padded to two digits. -/
theorem C4_day_of_year :
    (∀ dt : PyDatetime,
      1 ≤ dt.month → dt.month ≤ 12 → 1 ≤ dt.day → dt.day ≤ daysInMonth dt.year dt.month →
        get_doy dt = specOrdinalL (isLeapYear dt.year) dt.month dt.day
        ∧ 1 ≤ get_doy dt ∧ get_doy dt ≤ 366
        ∧ (derivedDoyStr dt).length = 3)
    ∧ get_doy ⟨2024, 2, 29, 0, 0, 0, 0⟩ = 60
    ∧ get_doy ⟨2023, 2, 28, 0, 0, 0, 0⟩ = 59
    ∧ (∀ y, 1000 ≤ y → y ≤ 9999 →
        (natStr y).data = (natStr y).data.take 2 ++ (lastTwoStr (natStr y)).data
        ∧ (lastTwoStr (natStr y)).length = 2
        ∧ lastTwoStr (natStr y) = pad2 (y % 100)) := by
  refine ⟨?_, by decide, by decide, ?_⟩
  · intro dt h1 h2 h3 h4
    have hdim := dimL_le_31 (isLeapYear dt.year) dt.month
    have hb := calendar_ball (isLeapYear dt.year) dt.month (by omega) dt.day
      (by unfold daysInMonth at h4; omega)
    unfold daysInMonth at h4
    rcases hb with ⟨e1, e2, e3⟩ | h | h | h
    · refine ⟨e1, e2, e3, ?_⟩
      have := pad3_ball (get_doy dt) (by unfold get_doy; omega)
      unfold derivedDoyStr
      unfold get_doy at this ⊢
      exact this
    · omega
    · omega
    · omega
  · intro y hy1 hy2
    have hlen := natStr_four_len y hy1 hy2
    have hdrop : (lastTwoStr (natStr y)).data
        = (natStr y).data.drop 2 := by
      unfold lastTwoStr
      rw [hlen]
    refine ⟨?_, ?_, lastTwo_natStr y hy1 hy2⟩
    · rw [hdrop, List.take_append_drop]
    · show (lastTwoStr (natStr y)).data.length = 2
      rw [hdrop]
      simp [hlen]

/-- Witness for C4 at the leap date 2024-02-29 and year 2023. -/
theorem C4_day_of_year_witness :
    get_doy ⟨2024, 2, 29, 0, 0, 0, 0⟩
        = specOrdinalL (isLeapYear 2024) 2 29
    ∧ (derivedDoyStr ⟨2024, 2, 29, 0, 0, 0, 0⟩).length = 3
    ∧ lastTwoStr (natStr 2023) = pad2 (2023 % 100) := by
  have h := C4_day_of_year
  have h1 := h.1 ⟨2024, 2, 29, 0, 0, 0, 0⟩ (by decide) (by decide) (by decide) (by decide)
  have h2 := (h.2.2.2 2023 (by decide) (by decide)).2.2
  exact ⟨h1.1, h1.2.2.2, h2⟩

/-! ## C5: the decompressor deletes the archive exactly on success -/

/-- C5: the decompressor deletes the compressed input iff inflation
fully succeeded: a missing input or an inflate failure reports failure
and leaves the compressed file in place; success writes the inflated
bytes (byte-identical to what the archive inflates to) to the output
and removes the archive.  No branch escapes to abort the caller. -/
theorem C5_decompress_contract :
    ∀ (inflate : Bytes → Except Bytes Bytes) (fs : FS) (gz out : String),
      gz ≠ out →
      (fs gz = none → decompress_gz_file inflate fs gz out = (false, fs))
      ∧ (∀ data part, fs gz = some data → inflate data = Except.error part →
          (decompress_gz_file inflate fs gz out).1 = false
          ∧ (decompress_gz_file inflate fs gz out).2 gz = some data)
      ∧ (∀ data body, fs gz = some data → inflate data = Except.ok body →
          (decompress_gz_file inflate fs gz out).1 = true
          ∧ (decompress_gz_file inflate fs gz out).2 out = some body
          ∧ (decompress_gz_file inflate fs gz out).2 gz = none) := by
  intro inflate fs gz out hne
  refine ⟨fun h => by simp [decompress_gz_file, h], ?_, ?_⟩
  · intro data part h1 h2
    simp [decompress_gz_file, h1, h2, fsSet, hne]
  · intro data body h1 h2
    refine ⟨by simp [decompress_gz_file, h1, h2], ?_, ?_⟩
    · simp [decompress_gz_file, h1, h2, fsSet, fsRemove, Ne.symm hne]
    · simp [decompress_gz_file, h1, h2, fsSet, fsRemove]

/-- Witness for C5: a one-entry filesystem whose archive inflates to
concrete bytes. -/
theorem C5_decompress_contract_witness :
    (decompress_gz_file (fun b => if b = [9] then Except.ok [1, 2] else Except.error [])
        (fun p => if p = "a.gz" then some [9] else none) "a.gz" "a").1 = true
    ∧ (decompress_gz_file (fun b => if b = [9] then Except.ok [1, 2] else Except.error [])
        (fun p => if p = "a.gz" then some [9] else none) "a.gz" "a").2 "a" = some [1, 2]
    ∧ (decompress_gz_file (fun b => if b = [9] then Except.ok [1, 2] else Except.error [])
        (fun p => if p = "a.gz" then some [9] else none) "a.gz" "a").2 "a.gz" = none := by
  have h := (C5_decompress_contract
    (fun b => if b = [9] then Except.ok [1, 2] else Except.error [])
    (fun p => if p = "a.gz" then some [9] else none) "a.gz" "a" (by decide)).2.2
    [9] [1, 2] rfl rfl
  exact h

/-! ## C9: when the fetcher touches the destination -/

/-- C9 counterexample: a connection failure during body streaming (after
a 2xx status) is reported as failure, yet the destination file was
created by that very call — the claim "on every reported failure the
destination is not newly created or overwritten" is false on the code. -/
theorem C9_counterexample :
    (download_file (fun _ => FetchOutcome.streamFail [7]) (fun _ => none) "u" "p").1 = false
    ∧ (download_file (fun _ => FetchOutcome.streamFail [7]) (fun _ => none) "u" "p").2 "p"
        = some [7]
    ∧ (fun _ => none : FS) "p" = none := by
  exact ⟨rfl, by decide, rfl⟩

/-- C9 amended: failures detected before the body is streamed (non-2xx
status, connection failure or timeout at request time) leave the
filesystem untouched; a success writes the body; only a failure that
happens mid-stream, after the status check passed, can leave a partial
destination file behind. -/
theorem C9_fetch_writes :
    ∀ (fetch : String → FetchOutcome) (fs : FS) (url dest : String),
      (fetch url = FetchOutcome.preFail →
        download_file fetch fs url dest = (false, fs))
      ∧ (∀ body, fetch url = FetchOutcome.ok body →
        download_file fetch fs url dest = (true, fsSet fs dest body))
      ∧ (∀ part, fetch url = FetchOutcome.streamFail part →
        (download_file fetch fs url dest).1 = false
        ∧ (download_file fetch fs url dest).2 = fsSet fs dest part) := by
  intro fetch fs url dest
  refine ⟨fun h => by simp [download_file, h], ?_, ?_⟩
  · intro body h
    simp [download_file, h]
  · intro part h
    simp [download_file, h]

/-- Witness for C9: a request-time failure leaves the (empty)
filesystem unchanged. -/
theorem C9_fetch_writes_witness :
    download_file (fun _ => FetchOutcome.preFail) (fun _ => none) "u" "p"
      = (false, (fun _ => none : FS)) :=
  (C9_fetch_writes (fun _ => FetchOutcome.preFail) (fun _ => none) "u" "p").1 rfl

/-- Witness for C10 at a station id of length 13. -/
theorem C10_station_id_unvalidated_witness :
    get_obs_date_from_rinex (Env.roverLines
        ⟨some ["2023 1 15 8 30 15.0 GPS TIME OF FIRST OBS".data],
          fun _ => FetchOutcome.preFail, fun b => Except.ok b, fun _ => none⟩)
      = some ⟨2023, 1, 15, 8, 30, 15, 0⟩
    ∧ (strToLower (Args.station_id ⟨"rover.obs", "LongStationXYZ", "out", "3"⟩)).length
        = (Args.station_id ⟨"rover.obs", "LongStationXYZ", "out", "3"⟩).length := by
  have h := C10_station_id_unvalidated ⟨"rover.obs", "LongStationXYZ", "out", "3"⟩
    ⟨some ["2023 1 15 8 30 15.0 GPS TIME OF FIRST OBS".data],
      fun _ => FetchOutcome.preFail, fun b => Except.ok b, fun _ => none⟩
    ⟨2023, 1, 15, 8, 30, 15, 0⟩ (by decide) rfl
  exact ⟨by decide, h.1⟩

/-! ## C6: parser failure aborts everything -/

/-- C6: every parser failure mode (missing/unreadable rover file, marker
line never found, or the first marker line not matching the pattern)
yields no timestamp; and whenever the parser yields no timestamp, the
run produces no events at all (in particular no network fetch) and
leaves the filesystem untouched. -/
theorem C6_parser_failure_aborts :
    get_obs_date_from_rinex none = none
    ∧ (∀ lines, (∀ l ∈ lines, containsSeq markerChars l = false) →
        get_obs_date_from_rinex (some lines) = none)
    ∧ (∀ pre line post,
        (∀ l ∈ pre, containsSeq markerChars l = false) →
        containsSeq markerChars line = true →
        reSearch line = none →
        get_obs_date_from_rinex (some (pre ++ line :: post)) = none)
    ∧ (∀ (args : Args) (env : Env),
        get_obs_date_from_rinex env.roverLines = none →
        mainRun args env = ([], env.fs0)) := by
  refine ⟨rfl, ?_, ?_, ?_⟩
  · intro lines h
    induction lines with
    | nil => rfl
    | cons l ls ih =>
      show scanLines (l :: ls) = none
      simp only [scanLines, h l (List.mem_cons_self l ls)]
      simp only [Bool.false_eq_true, if_false]
      exact ih fun x hx => h x (List.mem_cons_of_mem l hx)
  · intro pre line post hpre hline hsearch
    induction pre with
    | nil =>
      show scanLines (line :: post) = none
      simp only [scanLines, hline, if_true, parseTimeLine, hsearch]
    | cons p ps ih =>
      show scanLines (p :: (ps ++ line :: post)) = none
      simp only [scanLines, hpre p (List.mem_cons_self p ps), Bool.false_eq_true, if_false]
      exact ih fun x hx => hpre x (List.mem_cons_of_mem p hx)
  · intro args env h
    simp [mainRun, h]

/-- Witness for C6: a marker-free file, an unmatchable marker line, and
a missing rover file each abort before any fetch. -/
theorem C6_parser_failure_aborts_witness :
    get_obs_date_from_rinex (some ["header only".data]) = none
    ∧ get_obs_date_from_rinex (some ["  GPS       TIME OF FIRST OBS".data]) = none
    ∧ mainRun ⟨"r", "ALGO", "out", "3"⟩
        ⟨none, fun _ => FetchOutcome.ok [1], fun b => Except.ok b, fun _ => none⟩
        = ([], fun _ => none) := by
  refine ⟨?_, ?_, ?_⟩
  · exact C6_parser_failure_aborts.2.1 ["header only".data] (by decide)
  · exact C6_parser_failure_aborts.2.2.1 [] "  GPS       TIME OF FIRST OBS".data []
      (by intro l hl; cases hl) (by decide) (by decide)
  · exact C6_parser_failure_aborts.2.2.2 ⟨"r", "ALGO", "out", "3"⟩
      ⟨none, fun _ => FetchOutcome.ok [1], fun b => Except.ok b, fun _ => none⟩ rfl

/-! ## C7: the summary always runs and never overclaims -/

theorem summaryBase_spec (fs : FS) (p m : String) :
    summaryBase fs p m = m ∨ (fs (summaryBase fs p m)).isSome = true := by
  unfold summaryBase
  by_cases h : (fs p).isSome
  · right
    simp [h]
  · left
    simp [h]

/-- C7: whenever the parse succeeds, the run ends with the summary event
for every possible fetch/decompress outcome, and each of the base and
navigation lines is either the explicit manual-action message or a path
that the final filesystem confirms to exist. -/
theorem C7_summary_always :
    ∀ (args : Args) (env : Env) (dt : PyDatetime),
      get_obs_date_from_rinex env.roverLines = some dt →
      ∃ b n,
        (mainRun args env).1.getLast? = some (Event.summary args.rinex_rover_file b n)
        ∧ (b = manualObsMsg ∨ ((mainRun args env).2 b).isSome = true)
        ∧ (n = manualNavMsg ∨ ((mainRun args env).2 n).isSome = true) := by
  intro args env dt hp
  simp only [mainRun, hp, mainAfterParse]
  refine ⟨summaryBase (navStage env dt args.output_dir (obsStage args env dt).2).2.1
      (pathJoin args.output_dir (obsNames args dt).2.1) manualObsMsg,
    summaryBase (navStage env dt args.output_dir (obsStage args env dt).2).2.1
      (navStage env dt args.output_dir (obsStage args env dt).2).2.2 manualNavMsg,
    ?_, summaryBase_spec _ _ _, summaryBase_spec _ _ _⟩
  rw [List.getLast?_concat]

/-- Witness for C7: with every fetch failing, the summary still closes
the trace and reports both manual-action messages. -/
theorem C7_summary_always_witness :
    ∃ b n,
      (mainRun ⟨"rover.obs", "ALGO", "out", "3"⟩
        ⟨some ["2023 1 15 8 30 15.0 GPS TIME OF FIRST OBS".data],
          fun _ => FetchOutcome.preFail, fun b => Except.ok b, fun _ => none⟩).1.getLast?
        = some (Event.summary "rover.obs" b n)
      ∧ (b = manualObsMsg ∨ ((mainRun ⟨"rover.obs", "ALGO", "out", "3"⟩
          ⟨some ["2023 1 15 8 30 15.0 GPS TIME OF FIRST OBS".data],
            fun _ => FetchOutcome.preFail, fun b => Except.ok b, fun _ => none⟩).2 b).isSome = true)
      ∧ (n = manualNavMsg ∨ ((mainRun ⟨"rover.obs", "ALGO", "out", "3"⟩
          ⟨some ["2023 1 15 8 30 15.0 GPS TIME OF FIRST OBS".data],
            fun _ => FetchOutcome.preFail, fun b => Except.ok b, fun _ => none⟩).2 n).isSome = true) :=
  C7_summary_always ⟨"rover.obs", "ALGO", "out", "3"⟩
    ⟨some ["2023 1 15 8 30 15.0 GPS TIME OF FIRST OBS".data],
      fun _ => FetchOutcome.preFail, fun b => Except.ok b, fun _ => none⟩
    ⟨2023, 1, 15, 8, 30, 15, 0⟩ (by decide)

/-! ## C2: exactly one navigation fallback -/

theorem startsWithSeq_self_append (p rest : List Char) :
    startsWithSeq p (p ++ rest) = true := by
  induction p with
  | nil => rfl
  | cons c cs ih => simp [startsWithSeq, ih]

theorem strEndsWith_append (s t : String) : strEndsWith (s ++ t) t = true := by
  unfold strEndsWith endsWithSeq
  rw [String.data_append, List.reverse_append]
  exact startsWithSeq_self_append _ _

theorem obsStage_filter (args : Args) (env : Env) (dt : PyDatetime) :
    (obsStage args env dt).1.filter isFetchEvent
      = [Event.fetchAttempt (obsNames args dt).2.2
          (fetchOk (env.fetch (obsNames args dt).2.2))] := by
  rcases hf : env.fetch (obsNames args dt).2.2 with _ | part | body <;>
    (simp only [obsStage, download_file, hf, fetchOk, List.filter_append,
        apply_ite (List.filter isFetchEvent)]
     repeat' split
     all_goals simp [isFetchEvent])

theorem navStage_filter_fallback (env : Env) (dt : PyDatetime) (dir : String) (fs : FS)
    (h : fetchOk (env.fetch (nav_url dt.year (derivedDoyStr dt))) = false) :
    (navStage env dt dir fs).1.filter isFetchEvent
      = [Event.fetchAttempt (nav_url dt.year (derivedDoyStr dt)) false,
         Event.fetchAttempt (nav_url_gde dt.year (derivedDoyStr dt))
           (fetchOk (env.fetch (nav_url_gde dt.year (derivedDoyStr dt))))]
    ∧ (fetchOk (env.fetch (nav_url_gde dt.year (derivedDoyStr dt))) = false →
        Event.navBothFailedMsg ∈ (navStage env dt dir fs).1) := by
  rcases hf : env.fetch (nav_url dt.year (derivedDoyStr dt)) with _ | part | body
  · rcases hg : env.fetch (nav_url_gde dt.year (derivedDoyStr dt)) with _ | pg | bg <;>
      simp [navStage, download_file, hf, hg, fetchOk, isFetchEvent]
  · rcases hg : env.fetch (nav_url_gde dt.year (derivedDoyStr dt)) with _ | pg | bg <;>
      simp [navStage, download_file, hf, hg, fetchOk, isFetchEvent]
  · rw [hf] at h
    simp [fetchOk] at h

/-- C2: when the primary (DLR) navigation fetch fails, the run makes
exactly one fallback attempt (GDE) and no third one — the complete list
of fetch events is the observation fetch, the failed DLR fetch, and the
GDE fetch; if the fallback also fails, the navigation failure is
reported but the run still ends with the summary. -/
theorem C2_nav_fallback :
    ∀ (args : Args) (env : Env) (dt : PyDatetime),
      get_obs_date_from_rinex env.roverLines = some dt →
      fetchOk (env.fetch (nav_url dt.year (derivedDoyStr dt))) = false →
      (mainRun args env).1.filter isFetchEvent
        = [Event.fetchAttempt (obsNames args dt).2.2
            (fetchOk (env.fetch (obsNames args dt).2.2)),
           Event.fetchAttempt (nav_url dt.year (derivedDoyStr dt)) false,
           Event.fetchAttempt (nav_url_gde dt.year (derivedDoyStr dt))
             (fetchOk (env.fetch (nav_url_gde dt.year (derivedDoyStr dt))))]
      ∧ (fetchOk (env.fetch (nav_url_gde dt.year (derivedDoyStr dt))) = false →
          Event.navBothFailedMsg ∈ (mainRun args env).1)
      ∧ ∃ b n, (mainRun args env).1.getLast?
            = some (Event.summary args.rinex_rover_file b n) := by
  intro args env dt hp hfail
  have hobs := obsStage_filter args env dt
  have hnav := navStage_filter_fallback env dt args.output_dir (obsStage args env dt).2 hfail
  refine ⟨?_, ?_, ?_⟩
  · simp only [mainRun, hp, mainAfterParse, List.filter_append, hobs, hnav.1]
    simp [isFetchEvent]
  · intro hg
    have := hnav.2 hg
    simp only [mainRun, hp, mainAfterParse, List.mem_append]
    exact Or.inl (Or.inr this)
  · simp only [mainRun, hp, mainAfterParse]
    exact ⟨_, _, by rw [List.getLast?_concat]⟩

/-- Witness for C2: every fetch fails, so the DLR failure triggers the
single GDE attempt, both failures are reported, and the summary still
closes the trace. -/
theorem C2_nav_fallback_witness :
    (mainRun ⟨"rover.obs", "ALGO", "out", "3"⟩
        ⟨some ["2023 1 15 8 30 15.0 GPS TIME OF FIRST OBS".data],
          fun _ => FetchOutcome.preFail, fun b => Except.ok b, fun _ => none⟩).1.filter
        isFetchEvent
      = [Event.fetchAttempt
           (obsNames ⟨"rover.obs", "ALGO", "out", "3"⟩ ⟨2023, 1, 15, 8, 30, 15, 0⟩).2.2 false,
         Event.fetchAttempt (nav_url 2023 (derivedDoyStr ⟨2023, 1, 15, 8, 30, 15, 0⟩)) false,
         Event.fetchAttempt (nav_url_gde 2023 (derivedDoyStr ⟨2023, 1, 15, 8, 30, 15, 0⟩)) false]
    ∧ Event.navBothFailedMsg
        ∈ (mainRun ⟨"rover.obs", "ALGO", "out", "3"⟩
            ⟨some ["2023 1 15 8 30 15.0 GPS TIME OF FIRST OBS".data],
              fun _ => FetchOutcome.preFail, fun b => Except.ok b, fun _ => none⟩).1 := by
  have h := C2_nav_fallback ⟨"rover.obs", "ALGO", "out", "3"⟩
    ⟨some ["2023 1 15 8 30 15.0 GPS TIME OF FIRST OBS".data],
      fun _ => FetchOutcome.preFail, fun b => Except.ok b, fun _ => none⟩
    ⟨2023, 1, 15, 8, 30, 15, 0⟩ (by decide) rfl
  exact ⟨h.1, h.2.1 rfl⟩

/-! ## C8: version "2" never decompresses the observation file -/

theorem char_ofNat_toNat (n : Nat) (h : n < 55296) : (Char.ofNat n).toNat = n := by
  simp [Char.ofNat, Nat.isValidChar, h, Char.ofNatAux, Char.toNat]
  rfl

theorem pyLowerChar_ne_B (c : Char) : pyLowerChar c ≠ 'B' := by
  unfold pyLowerChar
  split
  case isTrue h =>
    intro he
    have h1 : c.toNat ≤ 90 := by
      have := h.2
      simp [Char.le_def] at this
      exact this
    have h2 : 65 ≤ c.toNat := by
      have := h.1
      simp [Char.le_def] at this
      exact this
    have h3 := char_ofNat_toNat (c.toNat + 32) (by omega)
    rw [he] at h3
    have hB : ('B' : Char).toNat = 66 := by decide
    omega
  case isFalse h =>
    intro he
    exact h (by rw [he]; exact ⟨by decide, by decide⟩)

theorem digitCh_ne_B (d : Nat) (h : d < 10) : digitCh d ≠ 'B' := by
  intro he
  have h3 := char_ofNat_toNat (48 + d) (by omega)
  rw [digitCh] at he
  rw [he] at h3
  have hB : ('B' : Char).toNat = 66 := by decide
  omega

theorem natDigits_head_digit (n : Nat) :
    ∃ d rest, d < 10 ∧ natDigits n = digitCh d :: rest := by
  induction n using Nat.strong_induction_on with
  | _ n ih =>
    by_cases h : n < 10
    · exact ⟨n, [], h, by rw [natDigits_single n h]⟩
    · obtain ⟨d, rest, hd, he⟩ := ih (n / 10) (by omega)
      exact ⟨d, rest ++ [digitCh (n % 10)], hd, by
        rw [natDigits_step n (by omega), he]; rfl⟩

theorem pad3_head_ne_B (n : Nat) :
    ∀ c, (pad3 n).data.head? = some c → c ≠ 'B' := by
  intro c h
  obtain ⟨d, r, hd, he⟩ := natDigits_head_digit n
  unfold pad3 at h
  rcases hk : 3 - (natDigits n).length with _ | k
  · rw [hk] at h
    simp [he] at h
    rw [← h]
    exact digitCh_ne_B d hd
  · rw [hk] at h
    simp [List.replicate] at h
    rw [← h]
    decide

theorem obsV2_head_ne_B (s : String) (n : Nat) (yy : String) :
    ∀ c, (obs_filename_v2_Z (strToLower s) (pad3 n) yy).data.head? = some c → c ≠ 'B' := by
  intro c h
  unfold obs_filename_v2_Z obs_filename_stem_v2 at h
  simp only [String.data_append, List.append_assoc] at h
  rcases s with ⟨sd⟩
  cases sd with
  | nil =>
    simp only [strToLower, List.map, List.nil_append] at h
    cases hp : (pad3 n).data with
    | nil =>
      rw [hp] at h
      simp at h
      rw [← h]
      decide
    | cons pc pr =>
      rw [hp] at h
      simp at h
      rw [← h]
      exact pad3_head_ne_B n pc (by rw [hp]; rfl)
  | cons x xs =>
    simp only [strToLower, List.map, List.cons_append, List.head?_cons] at h
    rw [← Option.some.inj h]
    exact pyLowerChar_ne_B x

theorem nav_gz_head (y : Nat) (d : String) :
    (nav_filename_rnx_gz y d).data.head? = some 'B' := by
  unfold nav_filename_rnx_gz nav_filename_stem
  simp only [String.data_append, List.append_assoc]
  rfl

theorem nav_gz_gde_head (y : Nat) (d : String) :
    (nav_filename_rnx_gz_gde y d).data.head? = some 'B' := by
  unfold nav_filename_rnx_gz_gde nav_filename_stem_gde
  simp only [String.data_append, List.append_assoc]
  rfl

theorem pathJoin_inj_right (dir a b : String) (h : pathJoin dir a = pathJoin dir b) : a = b := by
  unfold pathJoin at h
  have h2 := congrArg String.data h
  rw [String.data_append, String.data_append] at h2
  exact String.ext (List.append_cancel_left h2)

theorem obsV2_ne_nav_gz (s : String) (n : Nat) (yy : String) (y : Nat) (d : String) :
    obs_filename_v2_Z (strToLower s) (pad3 n) yy ≠ nav_filename_rnx_gz y d := by
  intro he
  have h1 := nav_gz_head y d
  rw [← he] at h1
  exact obsV2_head_ne_B s n yy 'B' h1 rfl

theorem obsV2_ne_nav_gz_gde (s : String) (n : Nat) (yy : String) (y : Nat) (d : String) :
    obs_filename_v2_Z (strToLower s) (pad3 n) yy ≠ nav_filename_rnx_gz_gde y d := by
  intro he
  have h1 := nav_gz_gde_head y d
  rw [← he] at h1
  exact obsV2_head_ne_B s n yy 'B' h1 rfl

theorem obsStage_v2_no_decompress (args : Args) (env : Env) (dt : PyDatetime)
    (hv : args.rinex_obs_version = "2") :
    ∀ gz out ok, Event.decompressCall gz out ok ∉ (obsStage args env dt).1 := by
  intro gz out ok h
  unfold obsStage at h
  simp only [obsNames, hv] at h
  simp [download_file, obs_filename_v2_Z, strEndsWith_append] at h
  split at h <;> simp at h

theorem navStage_decompress_shape (env : Env) (dt : PyDatetime) (dir : String) (fs : FS) :
    ∀ gz out ok, Event.decompressCall gz out ok ∈ (navStage env dt dir fs).1 →
      gz = pathJoin dir (nav_filename_rnx_gz dt.year (derivedDoyStr dt))
      ∨ gz = pathJoin dir (nav_filename_rnx_gz_gde dt.year (derivedDoyStr dt)) := by
  intro gz out ok h
  unfold navStage at h
  rcases hf : env.fetch (nav_url dt.year (derivedDoyStr dt)) with _ | p1 | b1 <;>
    rcases hg : env.fetch (nav_url_gde dt.year (derivedDoyStr dt)) with _ | p2 | b2 <;>
    simp [download_file, hf, hg, fetchOk] at h <;>
    tauto

/-- C8: with format version "2" the gzip decompressor is never invoked
on the observation archive, whatever the fetch outcome (the only
decompress calls in any trace target the navigation archives, whose
names start with an uppercase B that no lowercased station id or padded
day-of-year can produce), and the manual-decompression instruction is
emitted unconditionally before the fetch. -/
theorem C8_v2_manual_decompression :
    ∀ (args : Args) (env : Env) (dt : PyDatetime),
      get_obs_date_from_rinex env.roverLines = some dt →
      args.rinex_obs_version = "2" →
      Event.v2warning (obsNames args dt).1 ∈ (mainRun args env).1
      ∧ ∀ out ok, Event.decompressCall
          (pathJoin args.output_dir (obsNames args dt).1) out ok ∉ (mainRun args env).1 := by
  intro args env dt hp hv
  constructor
  · simp only [mainRun, hp, mainAfterParse, List.mem_append]
    left
    left
    unfold obsStage
    simp [hv]
  · intro out ok h
    simp only [mainRun, hp, mainAfterParse, List.append_assoc, List.mem_append,
      List.mem_singleton] at h
    rcases h with h | h | h
    · exact obsStage_v2_no_decompress args env dt hv _ _ _ h
    · have hs := navStage_decompress_shape env dt args.output_dir (obsStage args env dt).2 _ _ _ h
      rcases hs with hgz | hgz
      · have he := pathJoin_inj_right _ _ _ hgz
        rw [show (obsNames args dt).1
            = obs_filename_v2_Z (strToLower args.station_id) (pad3 (get_doy dt)) (derivedYY dt)
          from by simp [obsNames, hv, derivedDoyStr]] at he
        exact obsV2_ne_nav_gz args.station_id (get_doy dt) (derivedYY dt) dt.year
          (derivedDoyStr dt) he
      · have he := pathJoin_inj_right _ _ _ hgz
        rw [show (obsNames args dt).1
            = obs_filename_v2_Z (strToLower args.station_id) (pad3 (get_doy dt)) (derivedYY dt)
          from by simp [obsNames, hv, derivedDoyStr]] at he
        exact obsV2_ne_nav_gz_gde args.station_id (get_doy dt) (derivedYY dt) dt.year
          (derivedDoyStr dt) he
    · simp at h

theorem C8_v2_manual_decompression_witness :
    Event.v2warning (obsNames ⟨"rover.obs", "ALGO", "out", "2"⟩ ⟨2023, 1, 15, 8, 30, 15, 0⟩).1
        ∈ (mainRun ⟨"rover.obs", "ALGO", "out", "2"⟩
            ⟨some ["2023 1 15 8 30 15.0 GPS TIME OF FIRST OBS".data],
              fun _ => FetchOutcome.ok [1], fun b => Except.ok b, fun _ => none⟩).1
    ∧ ¬ Event.decompressCall
          (pathJoin "out" (obsNames ⟨"rover.obs", "ALGO", "out", "2"⟩ ⟨2023, 1, 15, 8, 30, 15, 0⟩).1)
          "x" true
        ∈ (mainRun ⟨"rover.obs", "ALGO", "out", "2"⟩
            ⟨some ["2023 1 15 8 30 15.0 GPS TIME OF FIRST OBS".data],
              fun _ => FetchOutcome.ok [1], fun b => Except.ok b, fun _ => none⟩).1 := by
  have h := C8_v2_manual_decompression ⟨"rover.obs", "ALGO", "out", "2"⟩
    ⟨some ["2023 1 15 8 30 15.0 GPS TIME OF FIRST OBS".data],
      fun _ => FetchOutcome.ok [1], fun b => Except.ok b, fun _ => none⟩
    ⟨2023, 1, 15, 8, 30, 15, 0⟩ (by decide) rfl
  exact ⟨h.1, h.2 "x" true⟩

/-! ## C3: the "TIME OF FIRST OBS" parser and float truncation -/

/-- C3 counterexample: on the line
"2023 1 15 8 30 15.286 GPS TIME OF FIRST OBS" the code returns
microsecond 285999, while the exact truncation of the fractional
seconds .286 to microseconds is 286000 — `int((float("15.286") - 15) *
1_000_000)` lands one below the decimal truncation because the nearest
binary64 double to 15.286 is slightly smaller than 15.286. -/
theorem C3_counterexample :
    get_obs_date_from_rinex (some ["2023 1 15 8 30 15.286 GPS TIME OF FIRST OBS".data])
      = some ⟨2023, 1, 15, 8, 30, 15, 285999⟩
    ∧ decimalVal "15.286".data = mkRat 15286 1000
    ∧ (qMulNat (qSub (decimalVal "15.286".data) (mkRat 15 1)) 1000000).floor = 286000
    ∧ (285999 : Nat) ≠ 286000 := by
  refine ⟨by decide, by decide, by decide, by decide⟩


theorem char_isDigit_iff (c : Char) : c.isDigit = true ↔ 48 ≤ c.toNat ∧ c.toNat ≤ 57 := by
  simp only [Char.isDigit, ge_iff_le, UInt32.le_def, BitVec.le_def]
  rw [show (UInt32.toBitVec 48).toNat = 48 from rfl,
    show (UInt32.toBitVec 57).toNat = 57 from rfl,
    show c.val.toBitVec.toNat = c.toNat from rfl]
  simp

theorem isSpaceCh_iff (c : Char) :
    isSpaceCh c = true ↔ c.toNat = 32 ∨ (9 ≤ c.toNat ∧ c.toNat ≤ 13) := by
  simp [isSpaceCh]

theorem space_not_digit (c : Char) (h : isSpaceCh c = true) : c.isDigit = false := by
  rw [isSpaceCh_iff] at h
  rw [← Bool.not_eq_true, char_isDigit_iff]
  omega

theorem digit_not_space (c : Char) (h : c.isDigit = true) : isSpaceCh c = false := by
  rw [char_isDigit_iff] at h
  rw [← Bool.not_eq_true, isSpaceCh_iff]
  omega

theorem digit_isNumDot (c : Char) (h : c.isDigit = true) : isNumDotCh c = true := by
  simp [isNumDotCh, h]

theorem numdot_not_space (c : Char) (h : isNumDotCh c = true) : isSpaceCh c = false := by
  simp only [isNumDotCh, Bool.or_eq_true] at h
  rcases h with h | h
  · exact digit_not_space c h
  · simp at h
    rw [h]
    decide

theorem takeWhile_append_stop (p : Char → Bool) (l : List Char) (c : Char) (t : List Char)
    (hall : ∀ x ∈ l, p x = true) (hc : p c = false) :
    (l ++ c :: t).takeWhile p = l ∧ (l ++ c :: t).dropWhile p = c :: t := by
  induction l with
  | nil => simp [List.takeWhile, List.dropWhile, hc]
  | cons a l ih =>
    have ha := hall a (List.mem_cons_self a l)
    have := ih fun x hx => hall x (List.mem_cons_of_mem a hx)
    simp [List.takeWhile, List.dropWhile, ha, this.1, this.2]

theorem dropWhile_cons_of_neg (p : Char → Bool) (c : Char) (t : List Char) (hc : p c = false) :
    (c :: t).dropWhile p = c :: t := by
  simp [List.dropWhile, hc]

theorem matchAt_nondigit (c : Char) (t : List Char) (hc : c.isDigit = false) :
    matchAt (c :: t) = none := by
  unfold matchAt take4Digits
  cases t with
  | nil => rfl
  | cons c2 t2 =>
    cases t2 with
    | nil => rfl
    | cons c3 t3 =>
      cases t3 with
      | nil => rfl
      | cons c4 t4 => simp [hc]

theorem reSearch_skip_nondigits (p rest : List Char)
    (hp : ∀ c ∈ p, c.isDigit = false) :
    reSearch (p ++ rest) = reSearch rest := by
  induction p with
  | nil => rfl
  | cons c p ih =>
    show reSearch (c :: (p ++ rest)) = reSearch rest
    rw [reSearch, matchAt_nondigit c _ (hp c (List.mem_cons_self c p))]
    exact ih fun x hx => hp x (List.mem_cons_of_mem c hx)

theorem startsWithSeq_self (p : List Char) : startsWithSeq p p = true := by
  have := startsWithSeq_self_append p []
  rwa [List.append_nil] at this

theorem containsSeq_append_right (pat l t : List Char) (h : containsSeq pat t = true) :
    containsSeq pat (l ++ t) = true := by
  induction l with
  | nil => exact h
  | cons c l ih =>
    show containsSeq pat (c :: (l ++ t)) = true
    rw [containsSeq]
    simp [ih]

theorem isSpaceCh_space : isSpaceCh ' ' = true := by decide

theorem dropSpaces1_run (ws : List Char) (r1 : Char) (rt : List Char)
    (hws : ∀ c ∈ ws, isSpaceCh c = true) (hne : ws ≠ []) (hr1 : isSpaceCh r1 = false) :
    dropSpaces1 (ws ++ r1 :: rt) = some (r1 :: rt) := by
  rcases ws with _ | ⟨w, wt⟩
  · exact absurd rfl hne
  have hw := hws w (by simp)
  have hstop := (takeWhile_append_stop isSpaceCh wt r1 rt
    (fun x hx => hws x (by simp [hx])) hr1).2
  show dropSpaces1 (w :: (wt ++ r1 :: rt)) = some (r1 :: rt)
  simp [dropSpaces1, hw, hstop]

theorem takeField_run (f ws : List Char) (r1 : Char) (rt : List Char)
    (h1 : 1 ≤ f.length) (h2 : f.length ≤ 2) (hf : ∀ c ∈ f, c.isDigit = true)
    (hws : ∀ c ∈ ws, isSpaceCh c = true) (hwne : ws ≠ [])
    (hr1 : isSpaceCh r1 = false) :
    takeField (f ++ (ws ++ r1 :: rt)) = some (f, r1 :: rt) := by
  rcases ws with _ | ⟨w, wt⟩
  · exact absurd rfl hwne
  have hwd := space_not_digit w (hws w (by simp))
  have hdrop : dropSpaces1 ((w :: wt) ++ r1 :: rt) = some (r1 :: rt) :=
    dropSpaces1_run (w :: wt) r1 rt hws (by simp) hr1
  have hdrop' : dropSpaces1 (w :: (wt ++ r1 :: rt)) = some (r1 :: rt) := hdrop
  rcases f with _ | ⟨m1, _ | ⟨m2, _ | ⟨m3, t⟩⟩⟩
  · simp at h1
  · have hm1 := hf m1 (by simp)
    show takeField (m1 :: w :: (wt ++ r1 :: rt)) = some ([m1], r1 :: rt)
    simp only [takeField, hm1, hwd]
    simp [hdrop']
  · have hm1 := hf m1 (by simp)
    have hm2 := hf m2 (by simp)
    show takeField (m1 :: m2 :: ((w :: wt) ++ r1 :: rt)) = some ([m1, m2], r1 :: rt)
    simp only [takeField, hm1, hm2]
    simp [hdrop']
  · simp at h2

theorem takeWhile1_step (s1 : Char) (st : List Char) (tc : Char) (tt : List Char)
    (hs1 : isNumDotCh s1 = true) (hst : ∀ c ∈ st, isNumDotCh c = true)
    (htc : isNumDotCh tc = false) :
    takeWhile1 isNumDotCh (s1 :: (st ++ tc :: tt)) = some (s1 :: st, tc :: tt) := by
  have hstop := takeWhile_append_stop isNumDotCh st tc tt hst htc
  simp [takeWhile1, hs1, hstop.1, hstop.2]

theorem matchAt_canonical_run
    (a b c d mo1 dy1 hr1 mn1 s1 : Char) (mot dyt hrt mnt st : List Char)
    (ws1 ws2 ws3 ws4 ws5 : List Char) (tc : Char) (tt : List Char)
    (hyd : ∀ x ∈ [a, b, c, d], Char.isDigit x = true)
    (hmd : ∀ x ∈ mo1 :: mot, Char.isDigit x = true) (hm2 : mot.length ≤ 1)
    (hdd : ∀ x ∈ dy1 :: dyt, Char.isDigit x = true) (hdd2 : dyt.length ≤ 1)
    (hhd : ∀ x ∈ hr1 :: hrt, Char.isDigit x = true) (hhh2 : hrt.length ≤ 1)
    (hmnd : ∀ x ∈ mn1 :: mnt, Char.isDigit x = true) (hmn2 : mnt.length ≤ 1)
    (hsec : ∀ x ∈ s1 :: st, isNumDotCh x = true)
    (hw1 : ∀ x ∈ ws1, isSpaceCh x = true) (hw1n : ws1 ≠ [])
    (hw2 : ∀ x ∈ ws2, isSpaceCh x = true) (hw2n : ws2 ≠ [])
    (hw3 : ∀ x ∈ ws3, isSpaceCh x = true) (hw3n : ws3 ≠ [])
    (hw4 : ∀ x ∈ ws4, isSpaceCh x = true) (hw4n : ws4 ≠ [])
    (hw5 : ∀ x ∈ ws5, isSpaceCh x = true) (hw5n : ws5 ≠ [])
    (htc : isNumDotCh tc = false) :
    matchAt ([a, b, c, d] ++ (ws1 ++ ((mo1 :: mot) ++ (ws2 ++ ((dy1 :: dyt) ++ (ws3
        ++ ((hr1 :: hrt) ++ (ws4 ++ ((mn1 :: mnt) ++ (ws5 ++ ((s1 :: st) ++ tc :: tt)))))))))))
      = some ⟨[a, b, c, d], mo1 :: mot, dy1 :: dyt, hr1 :: hrt, mn1 :: mnt, s1 :: st⟩ := by
  have ha := hyd a (by simp)
  have hb := hyd b (by simp)
  have hc := hyd c (by simp)
  have hd' := hyd d (by simp)
  have h4 : take4Digits ([a, b, c, d] ++ (ws1 ++ ((mo1 :: mot) ++ (ws2 ++ ((dy1 :: dyt) ++ (ws3
        ++ ((hr1 :: hrt) ++ (ws4 ++ ((mn1 :: mnt) ++ (ws5 ++ ((s1 :: st) ++ tc :: tt)))))))))))
      = some ([a, b, c, d], ws1 ++ ((mo1 :: mot) ++ (ws2 ++ ((dy1 :: dyt) ++ (ws3
        ++ ((hr1 :: hrt) ++ (ws4 ++ ((mn1 :: mnt) ++ (ws5 ++ ((s1 :: st) ++ tc :: tt)))))))))) := by
    simp [take4Digits, ha, hb, hc, hd']
  have hds : dropSpaces1 (ws1 ++ ((mo1 :: mot) ++ (ws2 ++ ((dy1 :: dyt) ++ (ws3
        ++ ((hr1 :: hrt) ++ (ws4 ++ ((mn1 :: mnt) ++ (ws5 ++ ((s1 :: st) ++ tc :: tt))))))))))
      = some ((mo1 :: mot) ++ (ws2 ++ ((dy1 :: dyt) ++ (ws3
        ++ ((hr1 :: hrt) ++ (ws4 ++ ((mn1 :: mnt) ++ (ws5 ++ ((s1 :: st) ++ tc :: tt))))))))) :=
    dropSpaces1_run ws1 mo1 _ hw1 hw1n (digit_not_space mo1 (hmd mo1 (by simp)))
  have hf1 : takeField ((mo1 :: mot) ++ (ws2 ++ ((dy1 :: dyt) ++ (ws3
        ++ ((hr1 :: hrt) ++ (ws4 ++ ((mn1 :: mnt) ++ (ws5 ++ ((s1 :: st) ++ tc :: tt)))))))))
      = some (mo1 :: mot, (dy1 :: dyt) ++ (ws3
        ++ ((hr1 :: hrt) ++ (ws4 ++ ((mn1 :: mnt) ++ (ws5 ++ ((s1 :: st) ++ tc :: tt))))))) :=
    takeField_run (mo1 :: mot) ws2 dy1 _ (by simp) (by simp; omega) hmd hw2 hw2n
      (digit_not_space dy1 (hdd dy1 (by simp)))
  have hf2 : takeField ((dy1 :: dyt) ++ (ws3 ++ ((hr1 :: hrt) ++ (ws4
        ++ ((mn1 :: mnt) ++ (ws5 ++ ((s1 :: st) ++ tc :: tt)))))))
      = some (dy1 :: dyt, (hr1 :: hrt) ++ (ws4
        ++ ((mn1 :: mnt) ++ (ws5 ++ ((s1 :: st) ++ tc :: tt))))) :=
    takeField_run (dy1 :: dyt) ws3 hr1 _ (by simp) (by simp; omega) hdd hw3 hw3n
      (digit_not_space hr1 (hhd hr1 (by simp)))
  have hf3 : takeField ((hr1 :: hrt) ++ (ws4 ++ ((mn1 :: mnt) ++ (ws5
        ++ ((s1 :: st) ++ tc :: tt)))))
      = some (hr1 :: hrt, (mn1 :: mnt) ++ (ws5 ++ ((s1 :: st) ++ tc :: tt))) :=
    takeField_run (hr1 :: hrt) ws4 mn1 _ (by simp) (by simp; omega) hhd hw4 hw4n
      (digit_not_space mn1 (hmnd mn1 (by simp)))
  have hf4 : takeField ((mn1 :: mnt) ++ (ws5 ++ ((s1 :: st) ++ tc :: tt)))
      = some (mn1 :: mnt, (s1 :: st) ++ tc :: tt) :=
    takeField_run (mn1 :: mnt) ws5 s1 _ (by simp) (by simp; omega) hmnd hw5 hw5n
      (numdot_not_space s1 (hsec s1 (by simp)))
  have hw : takeWhile1 isNumDotCh ((s1 :: st) ++ tc :: tt) = some (s1 :: st, tc :: tt) := by
    show takeWhile1 isNumDotCh (s1 :: (st ++ tc :: tt)) = _
    exact takeWhile1_step s1 st tc tt (hsec s1 (by simp))
      (fun x hx => hsec x (by simp [hx])) htc
  unfold matchAt
  rw [h4]
  simp only [Option.bind]
  rw [hds]
  simp only [Option.bind]
  rw [hf1]
  simp only [Option.bind]
  rw [hf2]
  simp only [Option.bind]
  rw [hf3]
  simp only [Option.bind]
  rw [hf4]
  simp only [Option.bind]
  rw [hw]
  rfl

theorem containsSeq_cons_of (pat : List Char) (x : Char) (t : List Char)
    (h : containsSeq pat t = true) : containsSeq pat (x :: t) = true := by
  rw [containsSeq]
  simp [h]

theorem scanLines_skip (pre : List (List Char)) (line : List Char) (post : List (List Char))
    (hpre : ∀ l ∈ pre, containsSeq markerChars l = false)
    (hline : containsSeq markerChars line = true) :
    scanLines (pre ++ line :: post) = parseTimeLine line := by
  induction pre with
  | nil =>
    show scanLines (line :: post) = _
    simp [scanLines, hline]
  | cons p ps ih =>
    show scanLines (p :: (ps ++ line :: post)) = _
    simp only [scanLines, hpre p (List.mem_cons_self p ps), Bool.false_eq_true, if_false]
    exact ih fun l hl => hpre l (List.mem_cons_of_mem p hl)

/-- C3 amended: (A) for every file whose first marker-bearing line
matches the pattern (six whitespace-separated numeric fields found
anywhere in the line by the leftmost regex search, with the marker
anywhere in the line), the parser returns the UTC timestamp whose year,
month, day, hour and minute fields exactly equal the input numbers and
whose second and microsecond fields are derived from the IEEE-754
double nearest the decimal seconds value: second is its integer part
and microsecond the truncation of the double-arithmetic product
(double(s) - second) * 10^6 — which can fall below the exact decimal
truncation (see the counterexample), so "fractional seconds truncated
to microseconds" holds only up to binary64 rounding of the seconds
field; and (B) every line consisting of a digit-free prefix (e.g. the
marker itself, label text, or whitespace), a 4-digit year, then month,
day, hour and minute of 1-2 digits each, separated by arbitrary
nonempty whitespace runs, then a digits/dot seconds token ended by a
non-token character, is matched by the search exactly at those six
fields. -/
theorem C3_amended_time_parse :
    (∀ (pre post : List (List Char)) (line : List Char) (f : RawFields) (x : Rat),
      (∀ l ∈ pre, containsSeq markerChars l = false) →
      containsSeq markerChars line = true →
      reSearch line = some f →
      pyFloatVal f.sec = some x →
      mkPyDatetime (digitsVal f.y) (digitsVal f.mo) (digitsVal f.d) (digitsVal f.h)
          (digitsVal f.mi) (pySecondOf x) (pyMicroOf x)
        = some ⟨digitsVal f.y, digitsVal f.mo, digitsVal f.d, digitsVal f.h, digitsVal f.mi,
            pySecondOf x, pyMicroOf x⟩ →
      get_obs_date_from_rinex (some (pre ++ line :: post))
        = some ⟨digitsVal f.y, digitsVal f.mo, digitsVal f.d, digitsVal f.h, digitsVal f.mi,
            pySecondOf x, pyMicroOf x⟩) ∧
    (∀ (sp ws1 ws2 ws3 ws4 ws5 yds mos dys hrs mns sec : List Char) (tc : Char)
        (tt : List Char),
      (∀ c ∈ sp, c.isDigit = false) →
      yds.length = 4 → (∀ c ∈ yds, Char.isDigit c = true) →
      1 ≤ mos.length → mos.length ≤ 2 → (∀ c ∈ mos, Char.isDigit c = true) →
      1 ≤ dys.length → dys.length ≤ 2 → (∀ c ∈ dys, Char.isDigit c = true) →
      1 ≤ hrs.length → hrs.length ≤ 2 → (∀ c ∈ hrs, Char.isDigit c = true) →
      1 ≤ mns.length → mns.length ≤ 2 → (∀ c ∈ mns, Char.isDigit c = true) →
      sec ≠ [] → (∀ c ∈ sec, isNumDotCh c = true) →
      (∀ c ∈ ws1, isSpaceCh c = true) → ws1 ≠ [] →
      (∀ c ∈ ws2, isSpaceCh c = true) → ws2 ≠ [] →
      (∀ c ∈ ws3, isSpaceCh c = true) → ws3 ≠ [] →
      (∀ c ∈ ws4, isSpaceCh c = true) → ws4 ≠ [] →
      (∀ c ∈ ws5, isSpaceCh c = true) → ws5 ≠ [] →
      isNumDotCh tc = false →
      reSearch (sp ++ (yds ++ (ws1 ++ (mos ++ (ws2 ++ (dys ++ (ws3 ++ (hrs ++ (ws4 ++ (mns
          ++ (ws5 ++ (sec ++ tc :: tt))))))))))))
        = some ⟨yds, mos, dys, hrs, mns, sec⟩) := by
  constructor
  · intro pre post line f x hpre hline hsearch hfloat hmk
    show scanLines _ = _
    rw [scanLines_skip pre line post hpre hline]
    unfold parseTimeLine
    rw [hsearch]
    dsimp only
    rw [hfloat]
    exact hmk
  · intro sp ws1 ws2 ws3 ws4 ws5 yds mos dys hrs mns sec tc tt hsp hy4 hyd
      hm1 hm2 hmd hdd1 hdd2 hdd hhh1 hhh2 hhd hmn1 hmn2 hmnd hsne hsec
      hw1 hw1n hw2 hw2n hw3 hw3n hw4 hw4n hw5 hw5n htc
    rcases yds with _ | ⟨a, yd1⟩
    · simp at hy4
    rcases yd1 with _ | ⟨b, yd2⟩
    · simp at hy4
    rcases yd2 with _ | ⟨c2, yd3⟩
    · simp at hy4
    rcases yd3 with _ | ⟨d2, yd4⟩
    · simp at hy4
    rcases yd4 with _ | ⟨e, yd5⟩
    case cons.cons.cons.cons.cons =>
      simp at hy4
    rcases mos with _ | ⟨m1, mot⟩
    · simp at hm1
    rcases dys with _ | ⟨dy1, dyt⟩
    · simp at hdd1
    rcases hrs with _ | ⟨hr1, hrt⟩
    · simp at hhh1
    rcases mns with _ | ⟨mn1, mnt⟩
    · simp at hmn1
    rcases sec with _ | ⟨s1, st⟩
    · exact absurd rfl hsne
    have hm := matchAt_canonical_run a b c2 d2 m1 dy1 hr1 mn1 s1 mot dyt hrt mnt st
      ws1 ws2 ws3 ws4 ws5 tc tt
      hyd hmd (by simpa using hm2) hdd (by simpa using hdd2) hhd (by simpa using hhh2)
      hmnd (by simpa using hmn2) hsec hw1 hw1n hw2 hw2n hw3 hw3n hw4 hw4n hw5 hw5n htc
    have hbody : reSearch ([a, b, c2, d2] ++ (ws1 ++ ((m1 :: mot) ++ (ws2 ++ ((dy1 :: dyt)
        ++ (ws3 ++ ((hr1 :: hrt) ++ (ws4 ++ ((mn1 :: mnt)
        ++ (ws5 ++ ((s1 :: st) ++ tc :: tt)))))))))))
        = some ⟨[a, b, c2, d2], m1 :: mot, dy1 :: dyt, hr1 :: hrt, mn1 :: mnt, s1 :: st⟩ := by
      show reSearch (a :: ([b, c2, d2] ++ (ws1 ++ ((m1 :: mot) ++ (ws2 ++ ((dy1 :: dyt)
        ++ (ws3 ++ ((hr1 :: hrt) ++ (ws4 ++ ((mn1 :: mnt)
        ++ (ws5 ++ ((s1 :: st) ++ tc :: tt)))))))))))) = _
      rw [reSearch]
      rw [show matchAt (a :: ([b, c2, d2] ++ (ws1 ++ ((m1 :: mot) ++ (ws2 ++ ((dy1 :: dyt)
        ++ (ws3 ++ ((hr1 :: hrt) ++ (ws4 ++ ((mn1 :: mnt)
        ++ (ws5 ++ ((s1 :: st) ++ tc :: tt))))))))))))
        = some ⟨[a, b, c2, d2], m1 :: mot, dy1 :: dyt, hr1 :: hrt, mn1 :: mnt, s1 :: st⟩
        from hm]
    rw [reSearch_skip_nondigits sp _ hsp]
    exact hbody

theorem C3_amended_time_parse_witness :
    get_obs_date_from_rinex
        (some ["TIME OF FIRST OBS   2023    01    15   08   30   15.0000000     GPS".data])
      = some ⟨2023, 1, 15, 8, 30, 15, 0⟩ := by
  have hB := C3_amended_time_parse.2 "TIME OF FIRST OBS   ".data "    ".data "    ".data
    "   ".data "   ".data "   ".data "2023".data "01".data "15".data "08".data "30".data
    "15.0000000".data ' ' "    GPS".data
    (by decide) (by decide) (by decide) (by decide) (by decide) (by decide)
    (by decide) (by decide) (by decide) (by decide) (by decide) (by decide)
    (by decide) (by decide) (by decide) (by decide) (by decide) (by decide)
    (by decide) (by decide) (by decide) (by decide) (by decide) (by decide)
    (by decide) (by decide) (by decide) (by decide)
  have hsearch : reSearch
      "TIME OF FIRST OBS   2023    01    15   08   30   15.0000000     GPS".data
      = some ⟨"2023".data, "01".data, "15".data, "08".data, "30".data,
          "15.0000000".data⟩ := hB
  exact C3_amended_time_parse.1 [] []
    "TIME OF FIRST OBS   2023    01    15   08   30   15.0000000     GPS".data
    ⟨"2023".data, "01".data, "15".data, "08".data, "30".data, "15.0000000".data⟩
    (mkRat 15 1) (by simp) (by decide) hsearch (by decide) (by decide)
